import Mathlib

/-!
# Verification of the tiny-img WebP conversion pipeline

Shallow embedding of `src/components/ImageConverter.tsx`: the conversion
pipeline (`convertImageToWebP`, `convertImageFromUrl`, `handleFiles`,
`handleUrlConvert`), result aggregation (`clearAll`, the Average Savings
figure) and export (`downloadImage`).

Browser effects are modelled explicitly:
* the outcome of decoding a blob as an image (`onload` vs `onerror`) and of
  `canvas.toBlob` (a WebP blob of some byte size, or `null`) are input data
  carried by `InputFile` / `UrlResponse`;
* `Math.random()` is modelled by its base-36 fraction digit sequence, the
  data consumed by `.toString(36).substr(2, 9)`;
* `URL.createObjectURL` handles are natural numbers supplied by the caller;
* JavaScript numbers that can be `NaN` or `±Infinity` are modelled by
  `JSNum`: integer-valued finite doubles (`finite z`) versus the non-finite
  values (`nonFinite`).  Every arithmetic step the component performs either
  stays on small integers and exact rationals (where doubles are exact) or is
  poisoned by a non-finite operand, exactly as in JS.

The file ignores the unreachable duplicate URL-conversion block that follows
the `return` inside `convertImageFromUrl` in the source (dead code, flagged as
a copy-paste defect by the repository's own design notes).
-/

namespace TinyImg

/-- A JavaScript number as this component produces and consumes it: either an
integer-valued finite double, or one of the non-finite values
(`NaN`, `Infinity`, `-Infinity`). -/
inductive JSNum where
  | finite : ℤ → JSNum
  | nonFinite : JSNum
deriving DecidableEq, Repr

/-- The function `Math.round` on a finite double whose value is the rational
`q`: it rounds half toward `+∞`, i.e. `⌊q + 1/2⌋`. -/
def jsRound (q : ℚ) : ℤ := ⌊q + 1 / 2⌋

/-- Addition as used by `reduce((acc, img) => acc + img.compressionRatio, 0)`:
finite integers add exactly; any non-finite operand poisons the result. -/
def addJS : JSNum → JSNum → JSNum
  | .finite a, .finite b => .finite (a + b)
  | _, _ => .nonFinite

/-- The JS method `String.prototype.split` with a one-character separator,
acting on the character list of the string.  `''.split(sep)` is `['']`. -/
def splitCh (sep : Char) : List Char → List (List Char)
  | [] => [[]]
  | c :: rest =>
    if c = sep then [] :: splitCh sep rest
    else (c :: (splitCh sep rest).headD []) :: (splitCh sep rest).tail

/-- Tail part of `joinCh`: prepends the separator before every part. -/
def joinChAux (sep : Char) : List (List Char) → List Char
  | [] => []
  | l :: rest => sep :: l ++ joinChAux sep rest

/-- Joining with a one-character separator: the inverse of `splitCh`. -/
def joinCh (sep : Char) : List (List Char) → List Char
  | [] => []
  | l :: rest => l ++ joinChAux sep rest

/-- Numeric value of a list of decimal digit characters. -/
def decDigitsVal (l : List Char) : ℤ :=
  l.foldl (fun acc c => acc * 10 + ((c.toNat : ℤ) - 48)) 0

/-- Numeric value of a list of hexadecimal digit characters. -/
def hexDigitsVal (l : List Char) : ℤ :=
  l.foldl (fun acc c =>
    acc * 16 +
      (if c.isDigit then (c.toNat : ℤ) - 48
       else if 'a' ≤ c ∧ c ≤ 'f' then (c.toNat : ℤ) - 87
       else (c.toNat : ℤ) - 55)) 0

/-- Hexadecimal digit test, for `parseInt` input carrying a `0x` prefix. -/
def isHexDigit (c : Char) : Bool :=
  c.isDigit || ('a' ≤ c && c ≤ 'f') || ('A' ≤ c && c ≤ 'F')

/-- The JS function `parseInt(s)` with no radix argument: skip leading
whitespace, read an optional sign, then the longest prefix of decimal digits
(or, after a `0x`/`0X` prefix, hexadecimal digits).  `none` models `NaN`. -/
def jsParseInt (s : String) : Option ℤ :=
  let cs := s.toList.dropWhile Char.isWhitespace
  let sign : ℤ := match cs with | '-' :: _ => -1 | _ => 1
  let body := match cs with
    | '-' :: r => r
    | '+' :: r => r
    | r => r
  match body with
  | '0' :: x :: r =>
    if x = 'x' ∨ x = 'X' then
      let hd := r.takeWhile isHexDigit
      if hd.isEmpty then none else some (sign * hexDigitsVal hd)
    else
      some (sign * decDigitsVal (('0' :: x :: r).takeWhile Char.isDigit))
  | body =>
    let d := body.takeWhile Char.isDigit
    if d.isEmpty then none else some (sign * decDigitsVal d)

/-- The JS method `String.prototype.trim`: strip whitespace from both ends. -/
def jsTrim (s : String) : String :=
  String.mk (((s.toList.dropWhile Char.isWhitespace).reverse.dropWhile
    Char.isWhitespace).reverse)

/-- Digit characters of `Number.prototype.toString(36)`: `0`-`9` then `a`-`z`. -/
def base36Char (d : Fin 36) : Char :=
  if d.val < 10 then Char.ofNat (48 + d.val) else Char.ofNat (87 + d.val)

/-- The id expression `Math.random().toString(36).substr(2, 9)`: the random
draw is modelled by its base-36 fraction digit sequence; `toString(36)`
renders `"0."` followed by those digits, and `substr(2, 9)` keeps the first
nine fraction digits.  The id is a pure function of the digits the random
source produced, so two draws with the same digits yield the same id. -/
def mkId (digits : List (Fin 36)) : String :=
  String.mk ((digits.take 9).map base36Char)

/-- The expression `Math.round((1 - enc / src) * 100)` exactly as the
component computes a compression ratio.  When `src = 0` the division yields
`Infinity` or `NaN` and rounding keeps it non-finite; the code contains no
guard for that case. -/
def compressionRatioJS (enc src : ℕ) : JSNum :=
  if src = 0 then .nonFinite
  else .finite (jsRound ((1 - (enc : ℚ) / (src : ℚ)) * 100))

/-- A file offered to the converter.  `name`, `mimeType` and `size` are the
`File` object's fields; `decodable` records whether the browser fires
`img.onload` (the bytes decode as an image), and `webpSize` the byte size of
the blob `canvas.toBlob(..., 'image/webp', quality)` delivers, with `none`
standing for a `null` blob (encode failure). -/
structure InputFile where
  name : String
  mimeType : String
  size : ℕ
  decodable : Bool
  webpSize : Option ℕ
deriving DecidableEq, Repr

/-- Failure modes of a single conversion: `img.onerror` (decode), a `null`
blob from `canvas.toBlob` (encode), and a failed `fetch` (URL path only). -/
inductive ConvError where
  | decodeError
  | encodeError
  | fetchError
deriving DecidableEq, Repr

/-- The `ConvertedImage` record built on a successful conversion.  The
original `File` object is kept only through its display name; blobs are
modelled by their byte sizes; `preview` is the `URL.createObjectURL` handle. -/
structure ConvertedImage where
  id : String
  originalName : String
  originalSize : ℕ
  convertedSize : ℕ
  compressionRatio : JSNum
  preview : ℕ
deriving DecidableEq, Repr

/-- The record literal built inside `convertImageToWebP` once `toBlob`
delivered a blob: id from the random draw, sizes from the file and the blob,
the ratio by `Math.round((1 - blob.size / file.size) * 100)`, and a fresh
object-URL handle for the preview. -/
def mkResult (rnd : List (Fin 36)) (handle : ℕ) (file : InputFile) :
    ConvertedImage :=
  { id := mkId rnd
    originalName := file.name
    originalSize := file.size
    convertedSize := file.webpSize.getD 0
    compressionRatio := compressionRatioJS (file.webpSize.getD 0) file.size
    preview := handle }

/-- The function `convertImageToWebP(file)`: resolves with a `ConvertedImage`
when the image decodes and `toBlob` delivers a blob, rejects with
`'Failed to load image'` on decode failure and `'Failed to convert image'`
when the blob is `null`. -/
def convertImageToWebP (rnd : List (Fin 36)) (handle : ℕ) (file : InputFile) :
    Except ConvError ConvertedImage :=
  if file.decodable then
    match file.webpSize with
    | some _ => .ok (mkResult rnd handle file)
    | none => .error .encodeError
  else .error .decodeError

/-- The observable data of the `fetch` response and of the browser's attempt
to decode and re-encode the fetched payload: HTTP success flag, the
`content-length` header (absent or a raw string), the fetched blob's byte
size and MIME type, decodability of the payload, and the WebP blob size
`toBlob` delivers (`none` for a `null` blob). -/
structure UrlResponse where
  ok : Bool
  contentLength : Option String
  blobSize : ℕ
  blobType : String
  decodable : Bool
  webpSize : Option ℕ
deriving DecidableEq, Repr

/-- The JS idiom `s || d` on strings: the default is taken when the value is
absent or the empty string (both falsy). -/
def orElseStr (s : Option String) (d : String) : String :=
  match s with
  | none => d
  | some v => if v = "" then d else v

/-- The source-size selection
`parseInt(response.headers.get('content-length') || '0')` followed by
`actualFileSize > 0 ? actualFileSize : imageBlob.size`.  A `NaN` from
`parseInt` fails the `> 0` comparison and also falls back to the blob size. -/
def actualOriginalSize (resp : UrlResponse) : ℕ :=
  match jsParseInt (orElseStr resp.contentLength "0") with
  | some n => if 0 < n then n.toNat else resp.blobSize
  | none => resp.blobSize

/-- The display-name derivation `url.split('/').pop()?.split('?')[0] ||
'image'`: last path segment with any query string stripped, defaulting to
`'image'` when empty. -/
def urlFileName (url : String) : String :=
  let seg := (splitCh '/' url.toList).getLastD []
  let name := (splitCh '?' seg).headD []
  if name.isEmpty then "image" else String.mk name

/-- The fake file name `` `${fileName.split('.')[0]}.${fileExtension}` ``
where the extension is `fileName.split('.').pop()` when the name contains a
dot and `'jpg'` otherwise. -/
def fakeFileName (url : String) : String :=
  let parts := splitCh '.' (urlFileName url).toList
  let ext := if 1 < parts.length then String.mk (parts.getLastD []) else "jpg"
  String.mk (parts.headD []) ++ "." ++ ext

/-- The record literal built inside `convertImageFromUrl` once `toBlob`
delivered a blob. -/
def mkUrlResult (rnd : List (Fin 36)) (handle : ℕ) (url : String)
    (resp : UrlResponse) : ConvertedImage :=
  { id := mkId rnd
    originalName := fakeFileName url
    originalSize := actualOriginalSize resp
    convertedSize := resp.webpSize.getD 0
    compressionRatio := compressionRatioJS (resp.webpSize.getD 0)
      (actualOriginalSize resp)
    preview := handle }

/-- The function `convertImageFromUrl(url)`: fetch, reject on HTTP failure,
select the source size from the `content-length` header with a fallback to
the payload size, decode, re-encode to WebP, and build the result record. -/
def convertImageFromUrl (rnd : List (Fin 36)) (handle : ℕ) (url : String)
    (resp : UrlResponse) : Except ConvError ConvertedImage :=
  if resp.ok then
    if resp.decodable then
      match resp.webpSize with
      | some _ => .ok (mkUrlResult rnd handle url resp)
      | none => .error .encodeError
    else .error .decodeError
  else .error .fetchError

/-- The accepted MIME types of the file path. -/
def acceptedTypes : List String :=
  ["image/jpeg", "image/png", "image/gif", "image/bmp"]

/-- The filter predicate of `handleFiles`:
`file.type.startsWith('image/') && [...].includes(file.type)`. -/
def isValidFile (f : InputFile) : Bool :=
  "image/".toList.isPrefixOf f.mimeType.toList && acceptedTypes.contains f.mimeType

/-- The semantics of `Promise.all` over already-determined task outcomes: it
fulfills with the values in input order (the i-th element of the resolved
array belongs to the i-th promise, regardless of completion timing), and
rejects as soon as any task rejects. -/
def promiseAll {ε α : Type} : List (Except ε α) → Except ε (List α)
  | [] => .ok []
  | .error e :: _ => .error e
  | .ok a :: rest => (promiseAll rest).map (fun l => a :: l)

/-- The task list `validFiles.map(file => convertImageToWebP(file))`, with the
random draw and the object-URL handle of the i-th task supplied by position. -/
def runTasks (rnds : ℕ → List (Fin 36)) (handles : ℕ → ℕ) :
    ℕ → List InputFile → List (Except ConvError ConvertedImage)
  | _, [] => []
  | i, f :: rest =>
    convertImageToWebP (rnds i) (handles i) f :: runTasks rnds handles (i + 1) rest

/-- The per-position results a fully successful batch resolves with:
the i-th valid file's conversion record, in submission order. -/
def expectedResults (rnds : ℕ → List (Fin 36)) (handles : ℕ → ℕ) :
    ℕ → List InputFile → List ConvertedImage
  | _, [] => []
  | i, f :: rest =>
    mkResult (rnds i) (handles i) f :: expectedResults rnds handles (i + 1) rest

/-- The observable outcome of one `handleFiles` call: the resulting value of
the `images` state, the single `alert` message if one was raised, and how
many conversion tasks were started. -/
structure BatchOutcome where
  images : List ConvertedImage
  alert : Option String
  tasksRun : ℕ
deriving DecidableEq, Repr

/-- The validation message of `handleFiles`. -/
def invalidFilesMsg : String := "Please select valid image files (JPEG, PNG, GIF, BMP)"

/-- The aggregate error message of `handleFiles`. -/
def batchErrorMsg : String := "Error converting images. Please try again."

/-- The function `handleFiles(files)` acting on the current `images` state
`prev`: filter to accepted MIME types, alert and stop when nothing remains,
otherwise `Promise.all` the conversions; on success append all results to
`prev`, on any failure leave `prev` untouched and raise one aggregate
alert. -/
def handleFiles (prev : List ConvertedImage) (rnds : ℕ → List (Fin 36))
    (handles : ℕ → ℕ) (files : List InputFile) : BatchOutcome :=
  if (files.filter isValidFile).length = 0 then
    { images := prev, alert := some invalidFilesMsg, tasksRun := 0 }
  else
    match promiseAll (runTasks rnds handles 0 (files.filter isValidFile)) with
    | .ok results =>
      { images := prev ++ results, alert := none
        tasksRun := (files.filter isValidFile).length }
    | .error _ =>
      { images := prev, alert := some batchErrorMsg
        tasksRun := (files.filter isValidFile).length }

/-- The function `clearAll()`: revoke every held preview handle, then empty
the collection.  Returns the new collection and the list of revoked
handles. -/
def clearAll (images : List ConvertedImage) : List ConvertedImage × List ℕ :=
  (([] : List ConvertedImage), images.map (fun img => img.preview))

/-- A download action triggered by `downloadImage`: the blob it saves
(modelled by its byte size) and the `a.download` file name. -/
structure DownloadAction where
  dataSize : ℕ
  filename : String
deriving DecidableEq, Repr

/-- The function `downloadImage(image)`: downloads `image.convertedBlob`
under the name `` `${image.originalFile.name.split('.')[0]}.webp` ``. -/
def downloadImage (img : ConvertedImage) : DownloadAction :=
  { dataSize := img.convertedSize
    filename := String.mk ((splitCh '.' img.originalName.toList).headD []) ++ ".webp" }

/-- The fold `images.reduce((acc, img) => acc + img.compressionRatio, 0)`. -/
def jsSum (l : List JSNum) : JSNum := l.foldl addJS (.finite 0)

/-- The Average Savings figure
`Math.round(images.reduce((acc, img) => acc + img.compressionRatio, 0) /
images.length)`.  The summary-stats block is rendered only under the guard
`images.length > 0`, so for the empty collection nothing is computed or
displayed (`none`). -/
def averageSavingsDisplay (images : List ConvertedImage) : Option JSNum :=
  if images.length = 0 then none
  else
    some (match jsSum (images.map (fun img => img.compressionRatio)) with
      | .finite s => .finite (jsRound ((s : ℚ) / (images.length : ℚ)))
      | .nonFinite => .nonFinite)

/-- The component state the URL path touches. -/
structure UrlState where
  images : List ConvertedImage
  imageUrl : String
  isProcessingUrl : Bool
deriving DecidableEq, Repr

/-- Externally visible effects of one `handleUrlConvert` call. -/
inductive UrlEffect where
  | fetch : String → UrlEffect
  | alertMsg : String → UrlEffect
deriving DecidableEq, Repr

/-- The user-facing message of each URL-path failure, as rejected inside
`convertImageFromUrl` and shown by `alert(error.message)`. -/
def errorMessage : ConvError → String
  | .fetchError => "Failed to fetch image from URL. Please check the URL and try again."
  | .decodeError => "Failed to load image from URL. Please check the URL and try again."
  | .encodeError => "Failed to convert image to WebP"

/-- The function `handleUrlConvert()`: return immediately when the trimmed
URL is empty; otherwise fetch and convert, appending the result and clearing
the input on success, alerting the error message on failure, and ending with
`isProcessingUrl` reset in either case. -/
def handleUrlConvert (s : UrlState) (rnd : List (Fin 36)) (handle : ℕ)
    (resp : UrlResponse) : UrlState × List UrlEffect :=
  if jsTrim s.imageUrl = "" then (s, [])
  else
    match convertImageFromUrl rnd handle (jsTrim s.imageUrl) resp with
    | .ok img =>
      ({ s with images := s.images ++ [img], imageUrl := "", isProcessingUrl := false },
        [.fetch (jsTrim s.imageUrl)])
    | .error e =>
      ({ s with isProcessingUrl := false },
        [.fetch (jsTrim s.imageUrl), .alertMsg (errorMessage e)])

/-- Spec-side characterization of the URL source size, following the spec's
words: take the `content-length` header when it is present and parses to a
positive number, otherwise fall back to the byte length of the payload.
Stated independently of the code's `|| '0'` idiom, for comparison with
`actualOriginalSize`. -/
def specSourceSize (header : Option String) (blobSize : ℕ) : ℕ :=
  match header with
  | some s =>
    match jsParseInt s with
    | some n => if 0 < n then n.toNat else blobSize
    | none => blobSize
  | none => blobSize

/-- Spec-side reading of `<baseNameWithoutExtension>`: the source name with
its final extension removed — everything before the last dot, or the whole
name when it has no dot.  For comparison with the code's `split('.')[0]`. -/
def baseNameWithoutExtension (name : String) : String :=
  if (splitCh '.' name.toList).length ≤ 1 then name
  else String.mk (joinCh '.' (splitCh '.' name.toList).dropLast)

/-- Spec-side reading of "results in completion order": the task results
listed in the order the tasks completed, for a completion schedule `sched`
(the indices of the tasks in completion order). -/
def completionOrderList {α : Type} (results : List α) (sched : List ℕ) :
    List α :=
  sched.filterMap (fun i => results.get? i)

/-- Fixture: a valid, decodable PNG of 100 bytes whose WebP output is 40
bytes. -/
def fileA : InputFile :=
  { name := "a.png", mimeType := "image/png", size := 100
    decodable := true, webpSize := some 40 }

/-- Fixture: a valid, decodable PNG of 200 bytes whose WebP output is 50
bytes. -/
def fileB : InputFile :=
  { name := "b.png", mimeType := "image/png", size := 200
    decodable := true, webpSize := some 50 }

/-- Fixture: a file with an accepted MIME type whose bytes do not decode. -/
def fileBad : InputFile :=
  { name := "bad.png", mimeType := "image/png", size := 10
    decodable := false, webpSize := none }

/-- Fixture: a file whose reported size is `0` yet whose bytes decode — the
environment in which the unguarded ratio division hits a zero denominator. -/
def fileZeroSize : InputFile :=
  { name := "z.png", mimeType := "image/png", size := 0
    decodable := true, webpSize := some 400 }

/-- Fixture: a file with a non-image MIME type. -/
def fileText : InputFile :=
  { name := "notes.txt", mimeType := "text/plain", size := 5
    decodable := false, webpSize := none }

/-- Fixture: a successful response with `content-length: 1000`, a 900-byte
payload and a 400-byte WebP encroding. -/
def respC4 : UrlResponse :=
  { ok := true, contentLength := some "1000", blobSize := 900
    blobType := "image/png", decodable := true, webpSize := some 400 }

/-- Fixture: a result whose source name contains more than one dot. -/
def imgDots : ConvertedImage :=
  { id := "abc", originalName := "photo.final.png", originalSize := 100
    convertedSize := 40, compressionRatio := .finite 60, preview := 0 }

/-- Fixture: a result with a single-dot source name. -/
def imgCat : ConvertedImage :=
  { id := "c", originalName := "cat.png", originalSize := 100
    convertedSize := 40, compressionRatio := .finite 60, preview := 1 }

/-- Fixture: a result with compression ratio 50. -/
def imgRatio50 : ConvertedImage :=
  { id := "r1", originalName := "x.png", originalSize := 100
    convertedSize := 50, compressionRatio := .finite 50, preview := 2 }

/-- Fixture: a result with compression ratio -10. -/
def imgRatioNeg10 : ConvertedImage :=
  { id := "r2", originalName := "y.png", originalSize := 100
    convertedSize := 110, compressionRatio := .finite (-10), preview := 3 }

/-- Fixture: a URL state whose input consists only of whitespace. -/
def sBlank : UrlState :=
  { images := [imgCat], imageUrl := "   ", isProcessingUrl := false }

/-! ## Helper lemmas -/

/-- Rounding a ratio of integers reduces to an integer division, which the
kernel can evaluate. -/
lemma jsRound_intCast_div_natCast (n : ℤ) (d : ℕ) (hd : d ≠ 0) :
    jsRound ((n : ℚ) / (d : ℚ)) = (2 * n + d) / ((2 * d : ℕ) : ℤ) := by
  unfold jsRound
  have hd0 : ((d : ℚ)) ≠ 0 := Nat.cast_ne_zero.mpr hd
  rw [show (n : ℚ) / (d : ℚ) + 1 / 2 = ((2 * n + d : ℤ) : ℚ) / ((2 * d : ℕ) : ℚ) by
    push_cast
    field_simp
    ring]
  exact Rat.floor_intCast_div_natCast (2 * n + d) (2 * d)

/-- Closed integer form of the compression ratio for a positive source
size. -/
lemma compressionRatioJS_eval (enc src : ℕ) (h : src ≠ 0) :
    compressionRatioJS enc src =
      .finite ((2 * (100 * ((src : ℤ) - enc)) + src) / ((2 * src : ℕ) : ℤ)) := by
  unfold compressionRatioJS
  rw [if_neg h]
  have hs0 : ((src : ℚ)) ≠ 0 := Nat.cast_ne_zero.mpr h
  rw [show (1 - (enc : ℚ) / (src : ℚ)) * 100
      = ((100 * ((src : ℤ) - enc) : ℤ) : ℚ) / ((src : ℕ) : ℚ) by
    push_cast
    field_simp
    ring]
  rw [jsRound_intCast_div_natCast _ _ h]

/-- Value used by several witnesses: a 1000-byte source encoded into 400
bytes saves 60 percent. -/
lemma compressionRatioJS_400_1000 : compressionRatioJS 400 1000 = .finite 60 := by
  rw [compressionRatioJS_eval 400 1000 (by decide)]
  decide

/-- A failing file makes its conversion task reject. -/
lemma convertImageToWebP_error (rnd : List (Fin 36)) (handle : ℕ) (f : InputFile)
    (hfail : f.decodable = false ∨ f.webpSize = none) :
    ∃ e, convertImageToWebP rnd handle f = .error e := by
  unfold convertImageToWebP
  rcases hfail with h | h
  · rw [h]
    exact ⟨.decodeError, rfl⟩
  · rw [h]
    cases hd : f.decodable
    · exact ⟨.decodeError, by simp⟩
    · exact ⟨.encodeError, by simp⟩

/-- A successful conversion yields exactly the record `mkResult` builds. -/
lemma convertImageToWebP_ok_inv {rnd : List (Fin 36)} {handle : ℕ}
    {f : InputFile} {img : ConvertedImage}
    (h : convertImageToWebP rnd handle f = .ok img) :
    img = mkResult rnd handle f := by
  unfold convertImageToWebP at h
  cases hd : f.decodable with
  | false => rw [hd] at h; simp at h
  | true =>
    rw [hd] at h
    cases hws : f.webpSize with
    | none => rw [hws] at h; simp at h
    | some ws =>
      rw [hws] at h
      simp at h
      exact h.symm

/-- A successful URL conversion yields exactly the record `mkUrlResult`
builds. -/
lemma convertImageFromUrl_ok_inv {rnd : List (Fin 36)} {handle : ℕ}
    {url : String} {resp : UrlResponse} {img : ConvertedImage}
    (h : convertImageFromUrl rnd handle url resp = .ok img) :
    img = mkUrlResult rnd handle url resp := by
  unfold convertImageFromUrl at h
  cases hok : resp.ok with
  | false => rw [hok] at h; simp at h
  | true =>
    rw [hok] at h
    cases hd : resp.decodable with
    | false => rw [hd] at h; simp at h
    | true =>
      rw [hd] at h
      cases hws : resp.webpSize with
      | none => rw [hws] at h; simp at h
      | some ws =>
        rw [hws] at h
        simp at h
        exact h.symm

/-- Membership of a failing file puts a rejected task into the task list. -/
lemma runTasks_error_of_mem (rnds : ℕ → List (Fin 36)) (handles : ℕ → ℕ)
    (f : InputFile) :
    ∀ (l : List InputFile) (i : ℕ), f ∈ l →
      (f.decodable = false ∨ f.webpSize = none) →
      ∃ e, Except.error e ∈ runTasks rnds handles i l := by
  intro l
  induction l with
  | nil => intro i h _; exact absurd h (List.not_mem_nil f)
  | cons g rest ih =>
    intro i hmem hfail
    rcases List.mem_cons.mp hmem with rfl | hrest
    · obtain ⟨e, he⟩ := convertImageToWebP_error (rnds i) (handles i) f hfail
      exact ⟨e, by rw [runTasks, he]; exact List.mem_cons_self _ _⟩
    · obtain ⟨e, he⟩ := ih (i + 1) hrest hfail
      exact ⟨e, by rw [runTasks]; exact List.mem_cons_of_mem _ he⟩

/-- `Promise.all` rejects when some task rejected. -/
lemma promiseAll_error_of_mem {ε α : Type} {l : List (Except ε α)} {e : ε}
    (h : Except.error e ∈ l) : ∃ eOut, promiseAll l = .error eOut := by
  induction l with
  | nil => exact absurd h (List.not_mem_nil _)
  | cons x rest ih =>
    rcases List.mem_cons.mp h with h1 | hrest
    · rw [← h1]
      exact ⟨e, rfl⟩
    · cases x with
      | error e2 => exact ⟨e2, rfl⟩
      | ok a =>
        obtain ⟨eo, heo⟩ := ih hrest
        exact ⟨eo, by rw [promiseAll, heo]; rfl⟩

/-- When every valid file decodes and encodes, `Promise.all` fulfills with
the per-position results, in submission order. -/
lemma runTasks_all_ok (rnds : ℕ → List (Fin 36)) (handles : ℕ → ℕ) :
    ∀ (l : List InputFile) (i : ℕ),
      (∀ f ∈ l, f.decodable = true ∧ f.webpSize ≠ none) →
      promiseAll (runTasks rnds handles i l)
        = .ok (expectedResults rnds handles i l) := by
  intro l
  induction l with
  | nil => intro i _; rfl
  | cons g rest ih =>
    intro i hall
    obtain ⟨hdec, hws⟩ := hall g (List.mem_cons_self g rest)
    obtain ⟨ws, hws'⟩ := Option.ne_none_iff_exists'.mp hws
    rw [runTasks, expectedResults]
    rw [show convertImageToWebP (rnds i) (handles i) g
        = .ok (mkResult (rnds i) (handles i) g) by
      unfold convertImageToWebP
      rw [hdec, hws']
      simp]
    rw [promiseAll, ih (i + 1) (fun f hf => hall f (List.mem_cons_of_mem g hf))]
    rfl

/-- Length of the expected result list. -/
lemma expectedResults_length (rnds : ℕ → List (Fin 36)) (handles : ℕ → ℕ) :
    ∀ (l : List InputFile) (i : ℕ),
      (expectedResults rnds handles i l).length = l.length := by
  intro l
  induction l with
  | nil => intro i; rfl
  | cons g rest ih => intro i; rw [expectedResults]; simp [ih (i + 1)]

/-- Summing a list of finite values is exact integer summation. -/
lemma jsSum_map_finite (l : List ℤ) :
    jsSum (l.map JSNum.finite) = .finite l.sum := by
  have aux : ∀ (m : List ℤ) (a : ℤ),
      (m.map JSNum.finite).foldl addJS (.finite a) = .finite (a + m.sum) := by
    intro m
    induction m with
    | nil => intro a; simp
    | cons x rest ih =>
      intro a
      simp only [List.map_cons, List.foldl_cons, addJS, List.sum_cons]
      rw [ih (a + x)]
      ring_nf
  rw [jsSum, aux l 0]
  simp

/-- The code's source-size selection agrees with the spec's
header-preferred selection. -/
lemma actualOriginalSize_eq_spec (resp : UrlResponse) :
    actualOriginalSize resp = specSourceSize resp.contentLength resp.blobSize := by
  unfold actualOriginalSize specSourceSize orElseStr
  cases h : resp.contentLength with
  | none => simp [show jsParseInt "0" = some 0 from by decide]
  | some s =>
    by_cases hs : s = ""
    · subst hs
      simp [show jsParseInt "0" = some 0 from by decide,
        show jsParseInt "" = none from by decide]
    · simp [hs]

/-- `splitCh` never returns the empty list of parts. -/
lemma splitCh_ne_nil (sep : Char) (l : List Char) : splitCh sep l ≠ [] := by
  cases l with
  | nil => simp [splitCh]
  | cons c rest =>
    rw [splitCh]
    by_cases h : c = sep <;> simp [h]

/-- Joining the parts of a split recovers the original characters. -/
lemma joinCh_splitCh (sep : Char) : ∀ l : List Char,
    joinCh sep (splitCh sep l) = l := by
  intro l
  induction l with
  | nil => rfl
  | cons c rest ih =>
    rw [splitCh]
    obtain ⟨a, as, ha⟩ : ∃ a as, splitCh sep rest = a :: as := by
      cases hr : splitCh sep rest with
      | nil => exact absurd hr (splitCh_ne_nil sep rest)
      | cons a as => exact ⟨a, as, rfl⟩
    rw [ha] at ih ⊢
    rw [joinCh] at ih
    by_cases h : c = sep
    · subst h
      rw [if_pos rfl, joinCh, joinChAux, List.nil_append, List.cons_append, ih]
    · rw [if_neg h]
      simp only [List.headD_cons, List.tail_cons]
      rw [joinCh, List.cons_append, ih]

/-- Rebuilding a string from the character list of a string is the
identity. -/
lemma string_mk_toList (s : String) : String.mk s.toList = s := rfl

/-! ## Claim theorems -/

/-- C1, counterexample.  The code's ratio computation is NOT guarded when
`sourceByteSize = 0`: a conversion completing with source size 0 (here a
0-byte file whose bytes nevertheless decode, with a 400-byte WebP output)
stores a non-finite ratio (`NaN`/`-Infinity`) — no sentinel integer is
reported, contradicting the claim's guarded-sentinel clause. -/
theorem claim1_counterexample :
    ∃ img, convertImageToWebP [0] 0 fileZeroSize = .ok img ∧
      img.compressionRatio = JSNum.nonFinite :=
  ⟨mkResult [0] 0 fileZeroSize, rfl, rfl⟩

/-- C1, amended.  Both conversion paths store
`Math.round((1 - encodedByteSize / sourceByteSize) * 100)` as the
compression ratio; whenever `sourceByteSize > 0` this value is the finite
integer `z` characterized by `2·src·z ≤ 200·(src − enc) + src < 2·src·(z+1)`
(rounding half toward `+∞`, possibly negative); when `sourceByteSize = 0` the
computation is unguarded and the stored value is non-finite — no sentinel is
substituted. -/
theorem claim1_amended :
    (∀ (rnd : List (Fin 36)) (handle : ℕ) (file : InputFile)
        (img : ConvertedImage),
      convertImageToWebP rnd handle file = .ok img →
        img.compressionRatio
          = compressionRatioJS img.convertedSize img.originalSize) ∧
    (∀ (rnd : List (Fin 36)) (handle : ℕ) (url : String) (resp : UrlResponse)
        (img : ConvertedImage),
      convertImageFromUrl rnd handle url resp = .ok img →
        img.compressionRatio
          = compressionRatioJS img.convertedSize img.originalSize) ∧
    (∀ enc src : ℕ, 0 < src →
      ∃ z : ℤ, compressionRatioJS enc src = .finite z ∧
        2 * (src : ℤ) * z ≤ 200 * ((src : ℤ) - (enc : ℤ)) + (src : ℤ) ∧
        200 * ((src : ℤ) - (enc : ℤ)) + (src : ℤ) < 2 * (src : ℤ) * (z + 1)) ∧
    (∀ enc : ℕ, compressionRatioJS enc 0 = .nonFinite) := by
  refine ⟨?_, ?_, ?_, ?_⟩
  · intro rnd handle file img h
    rw [convertImageToWebP_ok_inv h]
    rfl
  · intro rnd handle url resp img h
    rw [convertImageFromUrl_ok_inv h]
    rfl
  · intro enc src hsrc
    have hs0 : ((src : ℚ)) ≠ 0 := Nat.cast_ne_zero.mpr hsrc.ne'
    set x : ℚ := (1 - (enc : ℚ) / (src : ℚ)) * 100 + 1 / 2 with hxdef
    refine ⟨jsRound ((1 - (enc : ℚ) / (src : ℚ)) * 100),
      by simp [compressionRatioJS, hsrc.ne'], ?_, ?_⟩
    · have hle : ((jsRound ((1 - (enc : ℚ) / (src : ℚ)) * 100) : ℤ) : ℚ) ≤ x :=
        Int.floor_le x
      have h2s : (0 : ℚ) < 2 * (src : ℚ) := by positivity
      have hmul := mul_le_mul_of_nonneg_left hle (le_of_lt h2s)
      have hx : (2 * (src : ℚ)) * x = 200 * ((src : ℚ) - (enc : ℚ)) + (src : ℚ) := by
        rw [hxdef]
        field_simp
        ring
      rw [hx] at hmul
      have : (2 : ℚ) * (src : ℚ) * ((jsRound ((1 - (enc : ℚ) / (src : ℚ)) * 100) : ℤ) : ℚ)
          ≤ 200 * ((src : ℚ) - (enc : ℚ)) + (src : ℚ) := by linarith
      exact_mod_cast this
    · have hlt : x < ((jsRound ((1 - (enc : ℚ) / (src : ℚ)) * 100) : ℤ) : ℚ) + 1 :=
        Int.lt_floor_add_one x
      have h2s : (0 : ℚ) < 2 * (src : ℚ) := by positivity
      have hmul := mul_lt_mul_of_pos_left hlt h2s
      have hx : (2 * (src : ℚ)) * x = 200 * ((src : ℚ) - (enc : ℚ)) + (src : ℚ) := by
        rw [hxdef]
        field_simp
        ring
      rw [hx] at hmul
      have : 200 * ((src : ℚ) - (enc : ℚ)) + (src : ℚ)
          < 2 * (src : ℚ) * (((jsRound ((1 - (enc : ℚ) / (src : ℚ)) * 100) : ℤ) : ℚ) + 1) := by
        linarith
      exact_mod_cast this
  · intro enc
    rfl

/-- C1, witness: the amended theorem instantiated at a 1000-byte source with
a 400-byte WebP output, whose ratio is the finite integer 60. -/
theorem claim1_witness :
    ∃ z : ℤ, compressionRatioJS 400 1000 = .finite z ∧
      2 * ((1000 : ℕ) : ℤ) * z ≤ 200 * (((1000 : ℕ) : ℤ) - ((400 : ℕ) : ℤ)) + ((1000 : ℕ) : ℤ) ∧
      200 * (((1000 : ℕ) : ℤ) - ((400 : ℕ) : ℤ)) + ((1000 : ℕ) : ℤ)
        < 2 * ((1000 : ℕ) : ℤ) * (z + 1) :=
  claim1_amended.2.2.1 400 1000 (by decide)

/-- C2.  When some valid file of the batch fails to decode or encode, the
whole batch is discarded: the `images` collection keeps exactly its previous
value (no sibling result is added) and the single aggregate alert is
raised. -/
theorem claim2 (prev : List ConvertedImage) (rnds : ℕ → List (Fin 36))
    (handles : ℕ → ℕ) (files : List InputFile) (f : InputFile)
    (hmem : f ∈ files.filter isValidFile)
    (hfail : f.decodable = false ∨ f.webpSize = none) :
    (handleFiles prev rnds handles files).images = prev ∧
    (handleFiles prev rnds handles files).alert = some batchErrorMsg := by
  have hne : (files.filter isValidFile).length ≠ 0 := by
    intro h0
    rw [List.length_eq_zero] at h0
    rw [h0] at hmem
    exact absurd hmem (List.not_mem_nil f)
  obtain ⟨e, he⟩ :=
    runTasks_error_of_mem rnds handles f (files.filter isValidFile) 0 hmem hfail
  obtain ⟨eo, heo⟩ := promiseAll_error_of_mem he
  unfold handleFiles
  rw [if_neg hne, heo]
  exact ⟨rfl, rfl⟩

/-- C2, witness: a batch with one decodable and one undecodable file leaves
the previously converted result untouched and surfaces the aggregate
error. -/
theorem claim2_witness :
    (handleFiles [imgCat] (fun _ => []) (fun i => i) [fileA, fileBad]).images
      = [imgCat] ∧
    (handleFiles [imgCat] (fun _ => []) (fun i => i) [fileA, fileBad]).alert
      = some batchErrorMsg :=
  claim2 [imgCat] (fun _ => []) (fun i => i) [fileA, fileBad] fileBad
    (by decide) (Or.inl rfl)

/-- C3.  The batch filter accepts exactly the four declared MIME types
(`image/jpeg`, `image/png`, `image/gif`, `image/bmp`); when nothing passes
the filter, `handleFiles` surfaces the validation message, starts zero
conversion tasks and leaves the result collection exactly as it was. -/
theorem claim3 :
    (∀ f : InputFile, isValidFile f = true ↔ f.mimeType ∈ acceptedTypes) ∧
    (∀ (prev : List ConvertedImage) (rnds : ℕ → List (Fin 36))
        (handles : ℕ → ℕ) (files : List InputFile),
      files.filter isValidFile = [] →
      handleFiles prev rnds handles files =
        { images := prev, alert := some invalidFilesMsg, tasksRun := 0 }) := by
  constructor
  · intro f
    unfold isValidFile
    constructor
    · intro h
      have hc := (Bool.and_eq_true _ _).mp h |>.2
      simpa using hc
    · intro hmem
      refine (Bool.and_eq_true _ _).mpr ⟨?_, by simpa using hmem⟩
      unfold acceptedTypes at hmem
      simp only [List.mem_cons, List.mem_singleton, List.not_mem_nil, or_false] at hmem
      rcases hmem with h | h | h | h <;> rw [h] <;> decide
  · intro prev rnds handles files hempty
    unfold handleFiles
    rw [hempty]
    rfl

/-- C3, witness: a batch holding only a `text/plain` file is rejected with
the validation message, runs no task and keeps the collection unchanged. -/
theorem claim3_witness :
    handleFiles [imgCat] (fun _ => []) (fun i => i) [fileText] =
      { images := [imgCat], alert := some invalidFilesMsg, tasksRun := 0 } :=
  claim3.2 [imgCat] (fun _ => []) (fun i => i) [fileText] (by decide)

/-- C4.  A successful URL conversion takes `sourceByteSize` from the
`content-length` header when it parses to a positive number and otherwise
falls back to the fetched payload's byte length (`specSourceSize` states the
spec's selection rule), and computes the ratio from that size. -/
theorem claim4 (rnd : List (Fin 36)) (handle : ℕ) (url : String)
    (resp : UrlResponse) (ws : ℕ)
    (hok : resp.ok = true) (hdec : resp.decodable = true)
    (hws : resp.webpSize = some ws) :
    ∃ img, convertImageFromUrl rnd handle url resp = .ok img ∧
      img.originalSize = specSourceSize resp.contentLength resp.blobSize ∧
      img.compressionRatio
        = compressionRatioJS ws (specSourceSize resp.contentLength resp.blobSize) := by
  refine ⟨mkUrlResult rnd handle url resp, ?_, ?_, ?_⟩
  · unfold convertImageFromUrl
    rw [hok, hdec, hws]
    simp
  · exact actualOriginalSize_eq_spec resp
  · show compressionRatioJS (resp.webpSize.getD 0) (actualOriginalSize resp) = _
    rw [hws, actualOriginalSize_eq_spec resp]
    rfl

/-- C4, witness: `content-length: 1000` with a 400-byte WebP output yields a
source size of 1000 and `compressionRatioPercent = 60`. -/
theorem claim4_witness :
    ∃ img, convertImageFromUrl [] 0 "https://example.com/pic.jpg" respC4 = .ok img ∧
      img.originalSize = 1000 ∧ img.compressionRatio = JSNum.finite 60 := by
  obtain ⟨img, h1, h2, h3⟩ :=
    claim4 [] 0 "https://example.com/pic.jpg" respC4 400 rfl rfl rfl
  have hsize : specSourceSize respC4.contentLength respC4.blobSize = 1000 := by decide
  refine ⟨img, h1, by rw [h2, hsize], ?_⟩
  rw [h3, hsize]
  exact compressionRatioJS_400_1000

/-- C5.  The Average Savings figure is rendered only for a non-empty
collection; there it equals `Math.round` of the arithmetic mean of the
stored compression ratios, and for the empty collection nothing is computed
or displayed (no throw, no `NaN` reaches the output). -/
theorem claim5 :
    averageSavingsDisplay [] = none ∧
    ∀ (images : List ConvertedImage) (ratios : List ℤ),
      images ≠ [] →
      images.map (fun img => img.compressionRatio) = ratios.map JSNum.finite →
      averageSavingsDisplay images
        = some (.finite (jsRound ((ratios.sum : ℚ) / (ratios.length : ℚ)))) := by
  refine ⟨rfl, ?_⟩
  intro images ratios hne hmap
  have hlen : images.length = ratios.length := by
    have h := congrArg List.length hmap
    simpa using h
  unfold averageSavingsDisplay
  rw [if_neg (by simpa [List.length_eq_zero] using hne)]
  rw [hmap, jsSum_map_finite, hlen]

/-- C5, witness: ratios 50 and -10 average to `round(40 / 2) = 20`, matching
the spec's worked example. -/
theorem claim5_witness :
    averageSavingsDisplay [imgRatio50, imgRatioNeg10] = some (.finite 20) := by
  have h := claim5.2 [imgRatio50, imgRatioNeg10] [50, -10] (by simp) rfl
  rw [h]
  rw [show (([50, -10] : List ℤ).sum) = (40 : ℤ) from by decide,
      show (([50, -10] : List ℤ).length) = (2 : ℕ) from by decide]
  rw [jsRound_intCast_div_natCast 40 2 (by decide)]
  decide

/-- C6, counterexample.  `Promise.all` resolves with results indexed by
submission position, so the batch appends in submission order even when the
tasks complete in the opposite order: with completion schedule `[1, 0]`
(second file finishes first) the collection still reads `[result of a.png,
result of b.png]`, which differs from the completion-order list — refuting
the claim that collection order follows completion order. -/
theorem claim6_counterexample :
    (handleFiles [] (fun _ => []) (fun i => i) [fileA, fileB]).images
      = [mkResult [] 0 fileA, mkResult [] 1 fileB] ∧
    completionOrderList [mkResult [] 0 fileA, mkResult [] 1 fileB] [1, 0]
      = [mkResult [] 1 fileB, mkResult [] 0 fileA] ∧
    [mkResult [] 0 fileA, mkResult [] 1 fileB]
      ≠ [mkResult [] 1 fileB, mkResult [] 0 fileA] := by
  refine ⟨rfl, rfl, ?_⟩
  intro h
  injection h with h2 h3
  have h1 := congrArg ConvertedImage.originalName h2
  simp [mkResult, fileA, fileB] at h1

/-- C6, amended.  In a fully successful batch every created result is
appended exactly once, and the appended list is `expectedResults`: the i-th
entry is the conversion of the i-th valid file, i.e. submission order of the
filtered file list — independent of any completion schedule, since
`Promise.all` indexes its resolved array by submission position. -/
theorem claim6_amended (prev : List ConvertedImage) (rnds : ℕ → List (Fin 36))
    (handles : ℕ → ℕ) (files : List InputFile)
    (hne : files.filter isValidFile ≠ [])
    (hall : ∀ f ∈ files.filter isValidFile,
      f.decodable = true ∧ f.webpSize ≠ none) :
    (handleFiles prev rnds handles files).images
      = prev ++ expectedResults rnds handles 0 (files.filter isValidFile) ∧
    (expectedResults rnds handles 0 (files.filter isValidFile)).length
      = (files.filter isValidFile).length := by
  have hne' : (files.filter isValidFile).length ≠ 0 := by
    simpa [List.length_eq_zero] using hne
  constructor
  · unfold handleFiles
    rw [if_neg hne',
      runTasks_all_ok rnds handles (files.filter isValidFile) 0 hall]
  · exact expectedResults_length rnds handles _ 0

/-- C6, witness: the amended theorem instantiated at a two-file batch. -/
theorem claim6_witness :
    (handleFiles [] (fun _ => []) (fun i => i) [fileA, fileB]).images
      = [mkResult [] 0 fileA, mkResult [] 1 fileB] := by
  have h := (claim6_amended [] (fun _ => []) (fun i => i) [fileA, fileB]
    (by decide) (by decide)).1
  rw [List.nil_append] at h
  exact h.trans rfl

/-- C7.  `clearAll` leaves the collection empty and revokes the preview
handle of every result that was held: the revoked handles are exactly the
previews of the prior collection, so no handle is left unreleased. -/
theorem claim7 (images : List ConvertedImage) :
    (clearAll images).1 = [] ∧
    (clearAll images).2 = images.map (fun img => img.preview) ∧
    ∀ img ∈ images, img.preview ∈ (clearAll images).2 := by
  refine ⟨rfl, rfl, ?_⟩
  intro img hmem
  exact List.mem_map_of_mem (fun i => i.preview) hmem

/-- C7, witness: clearing a one-element collection empties it and releases
its preview handle. -/
theorem claim7_witness :
    (clearAll [imgCat]).1 = [] ∧ imgCat.preview ∈ (clearAll [imgCat]).2 :=
  ⟨(claim7 [imgCat]).1, (claim7 [imgCat]).2.2 imgCat (by simp)⟩

/-- C8, counterexample.  The code names the download after
`name.split('.')[0]`, the part before the FIRST dot, so for the source name
`photo.final.png` it produces `photo.webp` while the claimed
`<baseNameWithoutExtension>.webp` is `photo.final.webp`. -/
theorem claim8_counterexample :
    (downloadImage imgDots).filename = "photo.webp" ∧
    baseNameWithoutExtension imgDots.originalName ++ ".webp"
      = "photo.final.webp" ∧
    (downloadImage imgDots).filename
      ≠ baseNameWithoutExtension imgDots.originalName ++ ".webp" :=
  ⟨by decide, by decide, by decide⟩

/-- C8, amended.  `downloadImage` saves `encodedData` under the part of the
source name before the first dot followed by `.webp`; this agrees with
`<baseNameWithoutExtension>.webp` exactly for source names containing at
most one dot (at most two split parts). -/
theorem claim8_amended (img : ConvertedImage)
    (h : (splitCh '.' img.originalName.toList).length ≤ 2) :
    (downloadImage img).filename
      = baseNameWithoutExtension img.originalName ++ ".webp" ∧
    (downloadImage img).dataSize = img.convertedSize := by
  refine ⟨?_, rfl⟩
  unfold downloadImage baseNameWithoutExtension
  have hj := joinCh_splitCh '.' img.originalName.toList
  rcases hs : splitCh '.' img.originalName.toList with _ | ⟨a, tail⟩
  · exact absurd hs (splitCh_ne_nil _ _)
  rcases tail with _ | ⟨b, tail2⟩
  · rw [show splitCh '.' img.originalName.toList = [a] from hs] at hj
    rw [joinCh, joinChAux, List.append_nil] at hj
    rw [if_pos (by simp)]
    show String.mk a ++ ".webp" = img.originalName ++ ".webp"
    rw [hj, string_mk_toList]
  · rcases tail2 with _ | ⟨c, tail3⟩
    · rw [if_neg (by simp)]
      show String.mk a ++ ".webp"
        = String.mk (joinCh '.' (([a, b] : List (List Char)).dropLast)) ++ ".webp"
      rw [show (([a, b] : List (List Char)).dropLast) = [a] from rfl]
      rw [joinCh, joinChAux, List.append_nil]
    · rw [hs] at h
      simp only [List.length_cons] at h
      omega

/-- C8, witness: for the single-dot name `cat.png` the downloaded file is
`cat.webp`, the base name with its extension replaced. -/
theorem claim8_witness :
    (downloadImage imgCat).filename
      = baseNameWithoutExtension imgCat.originalName ++ ".webp" ∧
    (downloadImage imgCat).dataSize = imgCat.convertedSize :=
  claim8_amended imgCat (by decide)

/-- C9, counterexample.  The id is `Math.random().toString(36).substr(2, 9)`,
a pure function of the random draw, with no collision check: two conversions
whose draws produce the same base-36 digits — which a random source can do —
create two distinct results (different source names) carrying the SAME id,
refuting uniqueness "regardless of the values produced by the random
source". -/
theorem claim9_counterexample :
    ∃ img1 img2,
      convertImageToWebP [1, 2, 3] 0 fileA = .ok img1 ∧
      convertImageToWebP [1, 2, 3] 1 fileB = .ok img2 ∧
      img1.originalName ≠ img2.originalName ∧
      img1.id = img2.id :=
  ⟨mkResult [1, 2, 3] 0 fileA, mkResult [1, 2, 3] 1 fileB, rfl, rfl,
    by decide, rfl⟩

/-- C9, amended.  Every result is assigned its id at creation as the (at
most nine character) base-36 rendering of the random draw, on both
conversion paths; ids of two results coincide exactly when their draws
render to the same string, so uniqueness is only as good as the random
source and is not guaranteed. -/
theorem claim9_amended :
    (∀ (rnd : List (Fin 36)) (handle : ℕ) (file : InputFile)
        (img : ConvertedImage),
      convertImageToWebP rnd handle file = .ok img → img.id = mkId rnd) ∧
    (∀ (rnd : List (Fin 36)) (handle : ℕ) (url : String) (resp : UrlResponse)
        (img : ConvertedImage),
      convertImageFromUrl rnd handle url resp = .ok img → img.id = mkId rnd) ∧
    (∀ digits : List (Fin 36), (mkId digits).length ≤ 9) := by
  refine ⟨?_, ?_, ?_⟩
  · intro rnd handle file img h
    rw [convertImageToWebP_ok_inv h]
    rfl
  · intro rnd handle url resp img h
    rw [convertImageFromUrl_ok_inv h]
    rfl
  · intro digits
    show ((digits.take 9).map base36Char).length ≤ 9
    rw [List.length_map, List.length_take]
    exact min_le_left _ _

/-- C9, witness: a conversion with a concrete draw gets `mkId` of that draw
as its id. -/
theorem claim9_witness :
    ∃ img, convertImageToWebP [4, 5] 7 fileA = .ok img ∧ img.id = mkId [4, 5] :=
  ⟨mkResult [4, 5] 7 fileA, rfl, claim9_amended.1 [4, 5] 7 fileA _ rfl⟩

/-- C10.  When the URL input trims to the empty string, `handleUrlConvert`
returns before doing anything: no fetch is issued, no conversion happens, no
error is surfaced, and the whole state — result collection, input field and
`isProcessingUrl` flag — is exactly what it was. -/
theorem claim10 (s : UrlState) (rnd : List (Fin 36)) (handle : ℕ)
    (resp : UrlResponse) (h : jsTrim s.imageUrl = "") :
    handleUrlConvert s rnd handle resp = (s, []) := by
  unfold handleUrlConvert
  rw [if_pos h]

/-- C10, witness: a whitespace-only URL input leaves the state untouched and
produces no effect. -/
theorem claim10_witness :
    handleUrlConvert sBlank [] 0 respC4 = (sBlank, []) :=
  claim10 sBlank [] 0 respC4 (by decide)

end TinyImg
